import Mathlib

/-!
# Verification of the Todo/Task-List client (`App.tsx`) against its specification

Shallow embedding of the final React client (`src/unnamed/part_000`, the
repository's `App.tsx`): the `Task` record, the sort comparator used on fetch
and after every mutation, and the four state-mutating handlers
(`handleAddTask`, `handleToggleComplete`, `handleDeleteTask`,
`handleSaveEdit`).  Handlers are modelled as pure functions on an explicit
`AppState`; the HTTP request a handler issues (if any) is returned explicitly,
and the server's response to a successful request is passed in as a parameter.
-/

namespace Todo

/-- The `Task` interface of `App.tsx`:
`{ id: number; title: string; description: string | null; completed: boolean;
   labels: string | null }`.  `number` ids are integers here; `T | null`
becomes `Option T`. -/
structure Task where
  id : Int
  title : String
  description : Option String
  completed : Bool
  labels : Option String
deriving Repr, DecidableEq

/-- JS `String.prototype.trim()`: drop whitespace from both ends.  (Modelled
structurally on the character list so that it evaluates by kernel
reduction.) -/
def jsTrim (s : String) : String :=
  ⟨((s.data.dropWhile Char.isWhitespace).reverse.dropWhile Char.isWhitespace).reverse⟩

/-- The JS sort comparator used throughout `App.tsx`:
```
(a, b) => { if (a.completed === b.completed) return b.id - a.id;
            return a.completed ? 1 : -1; }
``` -/
def taskCmp (a b : Task) : Int :=
  if a.completed = b.completed then b.id - a.id
  else if a.completed then 1 else -1

/-- `a` may come no later than `b` under the comparator: `taskCmp a b ≤ 0`.
A JS `Array.prototype.sort` with a consistent comparator produces a list
sorted by this relation. -/
def taskLE (a b : Task) : Prop := taskCmp a b ≤ 0

instance : DecidableRel taskLE := fun a b => inferInstanceAs (Decidable (taskCmp a b ≤ 0))

instance : IsTotal Task taskLE := by
  constructor
  intro a b
  simp only [taskLE, taskCmp]
  by_cases h : a.completed = b.completed
  · rw [if_pos h, if_pos h.symm]; omega
  · rw [if_neg h, if_neg (fun hh : b.completed = a.completed => h hh.symm)]
    cases ha : a.completed <;> cases hb : b.completed <;> simp_all

instance : IsTrans Task taskLE := by
  constructor
  intro a b c hab hbc
  simp only [taskLE, taskCmp] at *
  by_cases h1 : a.completed = b.completed <;>
    by_cases h2 : b.completed = c.completed <;>
    cases ha : a.completed <;> cases hb : b.completed <;> cases hc : c.completed <;>
    simp_all <;> omega

/-- `App.tsx`'s sorting of a task array: JS `sort` is stable and the comparator
is consistent, so it is modelled by a stable sort by `taskLE`. -/
def sortTasks (ts : List Task) : List Task := List.insertionSort taskLE ts

/-- The specified strict presentation order on tasks with distinct ids:
every incomplete task strictly before every completed task, and within a
group (equal `completed`) strictly descending by `id`. -/
def specLT (a b : Task) : Prop :=
  (a.completed = false ∧ b.completed = true) ∨ (a.completed = b.completed ∧ b.id < a.id)

/-- The non-strict presentation ordering: incomplete before completed,
non-increasing `id` within each group. -/
def presentationLE (a b : Task) : Prop :=
  if a.completed = b.completed then b.id ≤ a.id else a.completed = false

/-- A task list satisfies the presentation ordering. -/
def Ordered (l : List Task) : Prop := List.Pairwise presentationLE l

instance : DecidableRel presentationLE := fun a b =>
  if h : a.completed = b.completed then
    decidable_of_iff (b.id ≤ a.id) (by simp [presentationLE, h])
  else
    decidable_of_iff (a.completed = false) (by simp [presentationLE, h])

instance (l : List Task) : Decidable (Ordered l) :=
  inferInstanceAs (Decidable (List.Pairwise presentationLE l))

theorem taskLE_iff_presentationLE (a b : Task) : taskLE a b ↔ presentationLE a b := by
  simp only [taskLE, taskCmp, presentationLE]
  by_cases h : a.completed = b.completed
  · rw [if_pos h, if_pos h]
    omega
  · rw [if_neg h, if_neg h]
    cases ha : a.completed <;> simp_all

theorem specLT_of_taskLE_of_ne {a b : Task} (h : taskLE a b) (hne : a.id ≠ b.id) :
    specLT a b := by
  rw [taskLE_iff_presentationLE] at h
  simp only [presentationLE] at h
  simp only [specLT]
  by_cases hc : a.completed = b.completed
  · rw [if_pos hc] at h
    exact Or.inr ⟨hc, lt_of_le_of_ne h (fun hh => hne hh.symm)⟩
  · rw [if_neg hc] at h
    left
    refine ⟨h, ?_⟩
    cases hb : b.completed
    · rw [h, hb] at hc; exact absurd rfl hc
    · rfl

/-- The three tasks of the spec's ordering test. -/
def taskA : Task := { id := 1, title := "A", description := none, completed := false, labels := none }

def taskB : Task := { id := 2, title := "B", description := none, completed := true, labels := none }

def taskC : Task := { id := 3, title := "C", description := none, completed := false, labels := none }

/-- C1: the comparator-based sort permutes its input, the result is pairwise
in the strict presentation order whenever the ids are distinct, and on the
spec's example A(incomplete,1), B(complete,2), C(incomplete,3) it returns
C, A, B. -/
theorem sortTasks_realises_presentation_order (ts : List Task)
    (hids : ts.Pairwise (fun a b => a.id ≠ b.id)) :
    (sortTasks ts).Perm ts ∧ (sortTasks ts).Pairwise specLT ∧
    sortTasks [taskA, taskB, taskC] = [taskC, taskA, taskB] := by
  have hperm : (sortTasks ts).Perm ts := List.perm_insertionSort taskLE ts
  have hsorted : List.Sorted taskLE (sortTasks ts) := List.sorted_insertionSort taskLE ts
  refine ⟨hperm, ?_, by decide⟩
  have hids' : (sortTasks ts).Pairwise (fun a b => a.id ≠ b.id) := by
    refine (List.Perm.pairwise_iff ?_ hperm).mpr hids
    intro a b h
    exact fun hh => h hh.symm
  exact (hsorted.and hids').imp (fun h => specLT_of_taskLE_of_ne h.1 h.2)

/-- C1 witness. -/
theorem sortTasks_realises_presentation_order_witness :
    ([taskA, taskB, taskC] : List Task).Pairwise (fun a b => a.id ≠ b.id) ∧
    ((sortTasks [taskA, taskB, taskC]).Perm [taskA, taskB, taskC] ∧
      (sortTasks [taskA, taskB, taskC]).Pairwise specLT ∧
      sortTasks [taskA, taskB, taskC] = [taskC, taskA, taskB]) :=
  ⟨by decide, sortTasks_realises_presentation_order [taskA, taskB, taskC] (by decide)⟩

/-! ## The client state and the four mutation handlers -/

/-- The `useState` pieces of `App.tsx` relevant to the mutation handlers:
`tasks`, `error`, `newTaskTitle`, `editingTaskId`, `editedTaskTitle`. -/
structure AppState where
  tasks : List Task
  error : Option String
  newTaskTitle : String
  editingTaskId : Option Int
  editedTaskTitle : String
deriving Repr, DecidableEq

/-- The body of the `POST` request of `handleAddTask`: `{ title: newTaskTitle }`. -/
structure PostBody where
  title : String
deriving Repr, DecidableEq

/-- A `PUT /tasks/{id}` request: target id and the full task payload. -/
structure PutRequest where
  targetId : Int
  payload : Task
deriving Repr, DecidableEq

/-- `handleAddTask` (success path).  Validation happens before the request:
if `newTaskTitle.trim()` is empty the handler sets the error and issues no
request.  Otherwise it POSTs `{ title: newTaskTitle }` (the raw, untrimmed
title); on success it prepends the server's `response.data` and re-sorts,
clears the input and the error.  The request issued (if any) is the first
component; the new state the second. -/
def handleAddTask (s : AppState) (response : Task) : Option PostBody × AppState :=
  if jsTrim s.newTaskTitle = "" then
    (none, { s with error := some "Task title cannot be empty." })
  else
    (some { title := s.newTaskTitle },
     { s with tasks := sortTasks (response :: s.tasks),
              newTaskTitle := "",
              error := none })

/-- The object `handleToggleComplete` builds:
`{ ...taskToToggle, completed: !taskToToggle.completed }`. -/
def toggleTaskData (t : Task) : Task := { t with completed := !t.completed }

/-- `handleToggleComplete` (success path).  If the task is currently being
edited (`editingTaskId === taskToToggle.id`) it returns immediately: no
request, state untouched.  Otherwise it PUTs `toggleTaskData t`, replaces the
task with that locally built object in state (the PUT response is not used),
re-sorts, and clears the error. -/
def handleToggleComplete (s : AppState) (t : Task) : Option PutRequest × AppState :=
  if s.editingTaskId = some t.id then
    (none, s)
  else
    (some { targetId := t.id, payload := toggleTaskData t },
     { s with tasks := sortTasks (s.tasks.map fun task =>
                if task.id = t.id then toggleTaskData t else task),
              error := none })

/-- `handleDeleteTask` (success path): DELETE the id, then filter it out of
local state (no re-sort), and clear the error. -/
def handleDeleteTask (s : AppState) (taskIdToDelete : Int) : AppState :=
  { s with tasks := s.tasks.filter fun task => task.id ≠ taskIdToDelete,
           error := none }

/-- The PUT payload of `handleSaveEdit`:
`{ ...originalTask, title: editedTaskTitle.trim(), labels: originalTask.labels }`. -/
def saveEditPayload (originalTask : Task) (editedTaskTitle : String) : Task :=
  { originalTask with title := jsTrim editedTaskTitle, labels := originalTask.labels }

/-- `handleSaveEdit` (success path).  Guards, in source order: return if no
task is being edited; validate the trimmed edited title is non-empty (else
set the error, no request); find the original task (else set a different
error and leave edit mode).  Then PUT the payload; on success replace the
edited task with the server's `response.data`, re-sort, clear the error and
leave edit mode. -/
def handleSaveEdit (s : AppState) (response : Task) : Option PutRequest × AppState :=
  match s.editingTaskId with
  | none => (none, s)
  | some eid =>
    if jsTrim s.editedTaskTitle = "" then
      (none, { s with error := some "Task title cannot be empty." })
    else
      match s.tasks.find? (fun task => task.id = eid) with
      | none =>
        (none, { s with error := some "Original task not found for editing.",
                        editingTaskId := none })
      | some originalTask =>
        (some { targetId := eid, payload := saveEditPayload originalTask s.editedTaskTitle },
         { s with tasks := sortTasks (s.tasks.map fun task =>
                    if task.id = eid then response else task),
                  error := none,
                  editingTaskId := none,
                  editedTaskTitle := "" })

/-! ## Claims about the handlers -/

theorem ordered_sortTasks (l : List Task) : Ordered (sortTasks l) :=
  (List.sorted_insertionSort taskLE l).imp fun h => (taskLE_iff_presentationLE _ _).mp h

/-- C2: every local state mutation of the client preserves the presentation
ordering (incomplete before completed, descending id within each group):
add, toggle and save-edit re-sort, and delete filters, which keeps any
ordering intact. -/
theorem handlers_preserve_presentation_order (s : AppState)
    (respAdd respEdit t : Task) (i : Int)
    (h : Ordered s.tasks) :
    Ordered (handleAddTask s respAdd).2.tasks ∧
    Ordered (handleToggleComplete s t).2.tasks ∧
    Ordered (handleSaveEdit s respEdit).2.tasks ∧
    Ordered (handleDeleteTask s i).tasks := by
  refine ⟨?_, ?_, ?_, ?_⟩
  · unfold handleAddTask
    split
    · exact h
    · exact ordered_sortTasks _
  · unfold handleToggleComplete
    split
    · exact h
    · exact ordered_sortTasks _
  · unfold handleSaveEdit
    rcases s.editingTaskId with _ | eid
    · exact h
    · dsimp only
      split
      · exact h
      · split
        · exact h
        · exact ordered_sortTasks _
  · exact h.sublist (List.filter_sublist _)

/-- C2 witness. -/
theorem handlers_preserve_presentation_order_witness :
    Ordered (⟨[taskC, taskA, taskB], none, "x", none, "y"⟩ : AppState).tasks ∧
    (Ordered (handleAddTask ⟨[taskC, taskA, taskB], none, "x", none, "y"⟩ taskB).2.tasks ∧
     Ordered (handleToggleComplete ⟨[taskC, taskA, taskB], none, "x", none, "y"⟩ taskA).2.tasks ∧
     Ordered (handleSaveEdit ⟨[taskC, taskA, taskB], none, "x", none, "y"⟩ taskB).2.tasks ∧
     Ordered (handleDeleteTask ⟨[taskC, taskA, taskB], none, "x", none, "y"⟩ 1).tasks) :=
  ⟨by decide,
   handlers_preserve_presentation_order ⟨[taskC, taskA, taskB], none, "x", none, "y"⟩
     taskB taskB taskA 1 (by decide)⟩

/-- C3: when the relevant trimmed title is empty, both `handleAddTask` and
`handleSaveEdit` (with an edit in progress) issue no request, leave the
tasks state unchanged, and set the error to "Task title cannot be empty.". -/
theorem blank_title_rejected (s : AppState) (respAdd respEdit : Task) (eid : Int)
    (hadd : jsTrim s.newTaskTitle = "")
    (hedit : jsTrim s.editedTaskTitle = "")
    (he : s.editingTaskId = some eid) :
    (handleAddTask s respAdd).1 = none ∧
    (handleAddTask s respAdd).2.tasks = s.tasks ∧
    (handleAddTask s respAdd).2.error = some "Task title cannot be empty." ∧
    (handleSaveEdit s respEdit).1 = none ∧
    (handleSaveEdit s respEdit).2.tasks = s.tasks ∧
    (handleSaveEdit s respEdit).2.error = some "Task title cannot be empty." := by
  unfold handleAddTask handleSaveEdit
  rw [he, if_pos hadd]
  dsimp only
  rw [if_pos hedit]
  exact ⟨rfl, rfl, rfl, rfl, rfl, rfl⟩

/-- C3 witness. -/
theorem blank_title_rejected_witness :
    (jsTrim (⟨[taskA], none, "  ", some 1, "\t"⟩ : AppState).newTaskTitle = "" ∧
     jsTrim (⟨[taskA], none, "  ", some 1, "\t"⟩ : AppState).editedTaskTitle = "" ∧
     (⟨[taskA], none, "  ", some 1, "\t"⟩ : AppState).editingTaskId = some 1) ∧
    ((handleAddTask ⟨[taskA], none, "  ", some 1, "\t"⟩ taskB).1 = none ∧
     (handleAddTask ⟨[taskA], none, "  ", some 1, "\t"⟩ taskB).2.tasks = [taskA] ∧
     (handleAddTask ⟨[taskA], none, "  ", some 1, "\t"⟩ taskB).2.error =
       some "Task title cannot be empty." ∧
     (handleSaveEdit ⟨[taskA], none, "  ", some 1, "\t"⟩ taskB).1 = none ∧
     (handleSaveEdit ⟨[taskA], none, "  ", some 1, "\t"⟩ taskB).2.tasks = [taskA] ∧
     (handleSaveEdit ⟨[taskA], none, "  ", some 1, "\t"⟩ taskB).2.error =
       some "Task title cannot be empty.") :=
  ⟨⟨by decide, by decide, rfl⟩,
   blank_title_rejected ⟨[taskA], none, "  ", some 1, "\t"⟩ taskB taskB 1
     (by decide) (by decide) rfl⟩

/-- C4: when `handleToggleComplete` proceeds (the task is not being edited),
the object it PUTs and installs is the original task with only `completed`
negated: `id`, `title`, `description` and `labels` are unchanged, so the
textual content sent is unchanged. -/
theorem toggle_changes_only_completed (s : AppState) (t : Task)
    (h : s.editingTaskId ≠ some t.id) :
    (handleToggleComplete s t).1 = some { targetId := t.id, payload := toggleTaskData t } ∧
    (handleToggleComplete s t).2.tasks =
      sortTasks (s.tasks.map fun task => if task.id = t.id then toggleTaskData t else task) ∧
    (toggleTaskData t).completed = !t.completed ∧
    (toggleTaskData t).id = t.id ∧
    (toggleTaskData t).title = t.title ∧
    (toggleTaskData t).description = t.description ∧
    (toggleTaskData t).labels = t.labels := by
  unfold handleToggleComplete
  rw [if_neg h]
  exact ⟨rfl, rfl, rfl, rfl, rfl, rfl, rfl⟩

/-- C4 witness. -/
theorem toggle_changes_only_completed_witness :
    (⟨[taskA], none, "", none, ""⟩ : AppState).editingTaskId ≠ some taskA.id ∧
    ((handleToggleComplete ⟨[taskA], none, "", none, ""⟩ taskA).1 =
       some { targetId := taskA.id, payload := toggleTaskData taskA } ∧
     (handleToggleComplete ⟨[taskA], none, "", none, ""⟩ taskA).2.tasks =
       sortTasks ([taskA].map fun task => if task.id = taskA.id then toggleTaskData taskA else task) ∧
     (toggleTaskData taskA).completed = !taskA.completed ∧
     (toggleTaskData taskA).id = taskA.id ∧
     (toggleTaskData taskA).title = taskA.title ∧
     (toggleTaskData taskA).description = taskA.description ∧
     (toggleTaskData taskA).labels = taskA.labels) :=
  ⟨by decide, toggle_changes_only_completed ⟨[taskA], none, "", none, ""⟩ taskA (by decide)⟩

/-- C5: the toggle transformation is an involution on `completed` and the
identity on `labels`. -/
theorem toggle_involution (t : Task) :
    (toggleTaskData (toggleTaskData t)).completed = t.completed ∧
    (toggleTaskData t).labels = t.labels ∧
    (toggleTaskData (toggleTaskData t)).labels = t.labels := by
  refine ⟨?_, rfl, rfl⟩
  simp [toggleTaskData]

/-- C6: the state update of `handleDeleteTask` removes exactly the tasks with
the given id: the result is a sublist of the original (so the surviving tasks
are unchanged and keep their relative order), and a task is in the result iff
it was present and has a different id. -/
theorem delete_removes_exactly_id (s : AppState) (i : Int) :
    ((handleDeleteTask s i).tasks).Sublist s.tasks ∧
    ∀ t : Task, t ∈ (handleDeleteTask s i).tasks ↔ t ∈ s.tasks ∧ t.id ≠ i := by
  refine ⟨List.filter_sublist _, fun t => ?_⟩
  unfold handleDeleteTask
  simp [List.mem_filter]

/-- C10: a toggle is never issued for the task being edited: when
`editingTaskId` equals the task's id, `handleToggleComplete` sends no request
and returns the state unchanged. -/
theorem no_toggle_while_editing (s : AppState) (t : Task)
    (h : s.editingTaskId = some t.id) :
    handleToggleComplete s t = (none, s) := by
  unfold handleToggleComplete
  rw [if_pos h]

/-- C10 witness. -/
theorem no_toggle_while_editing_witness :
    (⟨[taskA], none, "", some 1, "A"⟩ : AppState).editingTaskId = some taskA.id ∧
    handleToggleComplete ⟨[taskA], none, "", some 1, "A"⟩ taskA =
      (none, ⟨[taskA], none, "", some 1, "A"⟩) :=
  ⟨rfl, no_toggle_while_editing ⟨[taskA], none, "", some 1, "A"⟩ taskA rfl⟩

/-- C9: when the handlers proceed to a request, `handleAddTask` POSTs the raw
`newTaskTitle` (untrimmed), while `handleSaveEdit` PUTs a payload whose title
is `editedTaskTitle` trimmed — the two write paths differ in whether
surrounding whitespace reaches the server. -/
theorem add_sends_raw_title_saveEdit_sends_trimmed (s : AppState)
    (respAdd respEdit orig : Task) (eid : Int)
    (h1 : jsTrim s.newTaskTitle ≠ "")
    (he : s.editingTaskId = some eid)
    (h2 : jsTrim s.editedTaskTitle ≠ "")
    (hf : s.tasks.find? (fun task => task.id = eid) = some orig) :
    (handleAddTask s respAdd).1 = some { title := s.newTaskTitle } ∧
    (handleSaveEdit s respEdit).1 =
      some { targetId := eid, payload := saveEditPayload orig s.editedTaskTitle } ∧
    (saveEditPayload orig s.editedTaskTitle).title = jsTrim s.editedTaskTitle := by
  unfold handleAddTask handleSaveEdit
  rw [if_neg h1, he]
  dsimp only
  rw [if_neg h2, hf]
  exact ⟨rfl, rfl, rfl⟩

/-- C9 witness: with title inputs `" a "` for add and `" b "` for save-edit,
the POST carries `" a "` verbatim and the PUT carries `"b"`. -/
theorem add_sends_raw_title_saveEdit_sends_trimmed_witness :
    (jsTrim " a " ≠ "" ∧
     (⟨[taskA], none, " a ", some 1, " b "⟩ : AppState).editingTaskId = some 1 ∧
     jsTrim " b " ≠ "" ∧
     ([taskA].find? (fun task => task.id = 1) = some taskA)) ∧
    ((handleAddTask ⟨[taskA], none, " a ", some 1, " b "⟩ taskB).1 = some { title := " a " } ∧
     (handleSaveEdit ⟨[taskA], none, " a ", some 1, " b "⟩ taskB).1 =
       some { targetId := 1, payload := saveEditPayload taskA " b " } ∧
     (saveEditPayload taskA " b ").title = jsTrim " b ") :=
  ⟨⟨by decide, rfl, by decide, by decide⟩,
   add_sends_raw_title_saveEdit_sends_trimmed ⟨[taskA], none, " a ", some 1, " b "⟩
     taskB taskB taskA 1 (by decide) rfl (by decide) (by decide)⟩

/-- A server response to the toggle PUT that differs from the locally built
object (here: the backend echoes recomputed labels). -/
def toggleResponseX : Task :=
  { id := 1, title := "A", description := none, completed := true, labels := some "work" }

/-- C7 counterexample: the toggle handler ignores the server's response body.
With the PUT issued and the server responding `toggleResponseX`, the object
the client holds for id 1 is the locally built `toggleTaskData taskA`, which
differs from the response — so the response is not what the client installs
for the toggle mutation. -/
theorem toggle_installs_response_counterexample :
    (handleToggleComplete ⟨[taskA], none, "", none, ""⟩ taskA).1 =
      some { targetId := 1, payload := toggleTaskData taskA } ∧
    (handleToggleComplete ⟨[taskA], none, "", none, ""⟩ taskA).2.tasks.find?
      (fun t => t.id = 1) = some (toggleTaskData taskA) ∧
    toggleTaskData taskA ≠ toggleResponseX := by decide

/-- C7 amended: for add and save-edit the client does install the server's
direct response (it appears in the post-mutation task list, replacing the
edited task for save-edit), but for toggle the client installs its locally
built flipped copy and ignores the response body: the post-toggle list is,
up to the re-sort, the old list with the affected task replaced by
`toggleTaskData t`, independent of any response. -/
theorem mutation_installs_response_amended (s : AppState)
    (respAdd respEdit orig t : Task) (eid : Int)
    (h1 : jsTrim s.newTaskTitle ≠ "")
    (he : s.editingTaskId = some eid)
    (h2 : jsTrim s.editedTaskTitle ≠ "")
    (hf : s.tasks.find? (fun task => task.id = eid) = some orig)
    (h3 : s.editingTaskId ≠ some t.id) :
    respAdd ∈ (handleAddTask s respAdd).2.tasks ∧
    respEdit ∈ (handleSaveEdit s respEdit).2.tasks ∧
    (handleToggleComplete s t).2.tasks.Perm
      (s.tasks.map fun task => if task.id = t.id then toggleTaskData t else task) := by
  refine ⟨?_, ?_, ?_⟩
  · unfold handleAddTask
    rw [if_neg h1]
    exact ((List.perm_insertionSort taskLE _).mem_iff).mpr (List.mem_cons_self _ _)
  · unfold handleSaveEdit
    rw [he]
    dsimp only
    rw [if_neg h2, hf]
    dsimp only
    refine ((List.perm_insertionSort taskLE _).mem_iff).mpr ?_
    refine List.mem_map.mpr ⟨orig, List.mem_of_find?_eq_some hf, ?_⟩
    have hp := List.find?_some hf
    have hid : orig.id = eid := of_decide_eq_true hp
    rw [if_pos hid]
  · unfold handleToggleComplete
    rw [if_neg h3]
    exact List.perm_insertionSort taskLE _

/-- C7 amended witness. -/
theorem mutation_installs_response_amended_witness :
    (jsTrim " a " ≠ "" ∧
     (⟨[taskA, taskB], none, " a ", some 1, " b "⟩ : AppState).editingTaskId = some 1 ∧
     jsTrim " b " ≠ "" ∧
     [taskA, taskB].find? (fun task => task.id = 1) = some taskA ∧
     (⟨[taskA, taskB], none, " a ", some 1, " b "⟩ : AppState).editingTaskId ≠ some taskB.id) ∧
    (taskC ∈ (handleAddTask ⟨[taskA, taskB], none, " a ", some 1, " b "⟩ taskC).2.tasks ∧
     taskC ∈ (handleSaveEdit ⟨[taskA, taskB], none, " a ", some 1, " b "⟩ taskC).2.tasks ∧
     (handleToggleComplete ⟨[taskA, taskB], none, " a ", some 1, " b "⟩ taskB).2.tasks.Perm
       ([taskA, taskB].map fun task => if task.id = taskB.id then toggleTaskData taskB else task)) :=
  ⟨⟨by decide, rfl, by decide, by decide, by decide⟩,
   mutation_installs_response_amended ⟨[taskA, taskB], none, " a ", some 1, " b "⟩
     taskC taskC taskA taskB 1 (by decide) rfl (by decide) (by decide) (by decide)⟩

/-! ## The backend Task Service `add` (modelled from the spec) -/

/-- The service-level failure kinds of spec §7. -/
inductive ServiceError where
  | validationError
  | notFoundError
deriving Repr, DecidableEq

/-- Modelled from the spec: the backend Task Service `add` operation — the
FastAPI backend source is not part of the repository snapshot under `src/`.
Per §4.3: validate the trimmed title is non-empty (else `ValidationError`);
create the task with the Store's next id and `completed=false`; attempt
enrichment on the combined title/description text; persist any returned
labels onto the new task; return the task — enrichment failure never prevents
the add from succeeding.  Per §4.2 the enricher reports failure (or "no
labels") as an absent result, never by raising. -/
def serviceAdd (suggestLabels : String → Option (List String)) (nextId : Int)
    (title : String) (description : Option String) : Except ServiceError Task :=
  if jsTrim title = "" then
    .error .validationError
  else
    let text := title ++ (match description with | some d => " " ++ d | none => "")
    let labels := (suggestLabels text).map (String.intercalate ", ")
    .ok { id := nextId, title := title, description := description,
          completed := false, labels := labels }

/-- C8: with an enricher that fails on every attempt, `add` of any title that
is non-empty after trimming still succeeds, returning the created task with
`labels` absent and `completed = false`; the enrichment failure is never
surfaced as a failure of the add. -/
theorem add_succeeds_when_enrichment_fails (nextId : Int) (title : String)
    (description : Option String) (h : jsTrim title ≠ "") :
    serviceAdd (fun _ => none) nextId title description =
      .ok { id := nextId, title := title, description := description,
            completed := false, labels := none } := by
  unfold serviceAdd
  rw [if_neg h]
  rfl

/-- C8 witness: the spec's example `add({title:"Buy milk"})`. -/
theorem add_succeeds_when_enrichment_fails_witness :
    jsTrim "Buy milk" ≠ "" ∧
    serviceAdd (fun _ => none) 1 "Buy milk" none =
      .ok { id := 1, title := "Buy milk", description := none,
            completed := false, labels := none } :=
  ⟨by decide, add_succeeds_when_enrichment_fails 1 "Buy milk" none (by decide)⟩

end Todo
